import Mathlib

/-!
Verification of the network-traffic dashboard frontend (`src/App.vue`).

The component's script is shallowly embedded here:
* JavaScript numbers are modelled as rationals (`ℚ`);
* JavaScript strings are Lean `String`s;
* the JavaScript runtime `Date` is modelled for the ECMAScript Date Time
  String Format (implementation-specific fallback formats are modelled as
  unparseable), with the local time zone fixed at Asia/Seoul (UTC+9), the
  zone the dashboard itself pins in its timeline request (`tz=Asia/Seoul`);
* the network is modelled as an environment record giving each endpoint's
  outcome, and `fetchAll` becomes an explicit state-transition function
  that also reports which endpoints were contacted.
-/

namespace Dashboard

/-! ## JavaScript numeric formatting helpers -/

/-- Model of JavaScript `Number.prototype.toFixed(digits)`: round to
`digits` decimal places, ties away from zero, and render with the sign,
an unpadded integer part and exactly `digits` fractional digits. -/
def jsToFixed (digits : Nat) (q : ℚ) : String :=
  let p : ℚ := (10 : ℚ) ^ digits
  let n : Int := if 0 ≤ q then ⌊q * p + 1/2⌋ else -⌊-q * p + 1/2⌋
  let sign : String := if n < 0 ∨ (n = 0 ∧ q < 0) then "-" else ""
  let m : Nat := n.natAbs
  let intPart : Nat := m / 10 ^ digits
  let fracNat : Nat := m % 10 ^ digits
  if digits = 0 then
    sign ++ toString intPart
  else
    let fs := toString fracNat
    let pad := String.mk (List.replicate (digits - fs.length) '0')
    sign ++ toString intPart ++ "." ++ pad ++ fs

/-! ## `buildDownsampleIndices` (App.vue lines 134–147) -/

/-- Embedding of `buildDownsampleIndices(length, target = 300)`:
if `length <= target` return `[0, …, length-1]`; otherwise
`step = Math.ceil(length / target)` and the loop
`for (let i = 0; i < length; i += step) indices.push(i)` collects the
multiples of `step` below `length` (when `target = 0`, JavaScript gives
`step = Infinity` and the loop body runs exactly once, at `i = 0`);
finally `length - 1` is appended when the last collected index differs
from it. -/
def buildDownsampleIndices (length : Nat) (target : Nat := 300) : List Nat :=
  if length ≤ target then
    List.range length
  else
    let indices : List Nat :=
      if target = 0 then [0]
      else
        let step := (length + target - 1) / target
        (List.range ((length + step - 1) / step)).map (fun k => k * step)
    if indices.getLast? ≠ some (length - 1) then indices ++ [length - 1] else indices

-- sanity checks on small inputs
example : buildDownsampleIndices 5 2 = [0, 3, 4] := by decide
example : buildDownsampleIndices 2 0 = [0, 1] := by decide
example : buildDownsampleIndices 0 300 = [] := by decide
example : buildDownsampleIndices 4 300 = [0, 1, 2, 3] := by decide
example : jsToFixed 1 0 = "0.0" := by norm_num [jsToFixed]; rfl
example : jsToFixed 1 (1/2) = "0.5" := by norm_num [jsToFixed]; rfl
example : jsToFixed 1 1 = "1.0" := by norm_num [jsToFixed]; rfl
example : jsToFixed 2 (171/100) = "1.71" := by norm_num [jsToFixed]; rfl
example : jsToFixed 1 (-1/20) = "-0.1" := by norm_num [jsToFixed]; rfl

/-! ## Arithmetic facts about the downsampling index set -/

/-- Rewriting the ceiling division `(L + s - 1) / s` as `(L - 1) / s + 1`
(valid for `1 ≤ s` and `1 ≤ L`). -/
lemma ceilDiv_eq_pred_div_add_one {L s : Nat} (hs : 1 ≤ s) (hL : 1 ≤ L) :
    (L + s - 1) / s = (L - 1) / s + 1 := by
  have h1 : L + s - 1 = (L - 1) + s := by omega
  rw [h1, Nat.add_div_right _ hs]

/-- Any natural is less than `(its value / s + 1) * s` for positive `s`. -/
lemma lt_div_add_one_mul {a s : Nat} (hs : 1 ≤ s) : a < (a / s + 1) * s := by
  calc a < a / s * s + s := Nat.lt_div_mul_add hs
    _ = (a / s + 1) * s := by ring

/-- Membership in the list of multiples of `s` collected by the downsampling
loop: `j` occurs iff `j` is a multiple of `s` below `L`. -/
lemma mem_multiples_iff {L s : Nat} (hs : 1 ≤ s) (hL : 1 ≤ L) (j : Nat) :
    j ∈ (List.range ((L + s - 1) / s)).map (fun k => k * s) ↔ j < L ∧ s ∣ j := by
  rw [ceilDiv_eq_pred_div_add_one hs hL]
  simp only [List.mem_map, List.mem_range]
  constructor
  · rintro ⟨k, hk, rfl⟩
    have hk' : k ≤ (L - 1) / s := by omega
    have := (Nat.le_div_iff_mul_le hs).mp hk'
    exact ⟨by omega, dvd_mul_left s k⟩
  · rintro ⟨hjL, k, rfl⟩
    refine ⟨k, ?_, by ring⟩
    have : k * s ≤ L - 1 := by
      have : k * s = s * k := by ring
      omega
    have := (Nat.le_div_iff_mul_le hs).mpr this
    omega

/-- The list of multiples of a positive step is strictly ascending. -/
lemma sorted_multiples (n s : Nat) (hs : 1 ≤ s) :
    ((List.range n).map (fun k => k * s)).Sorted (· < ·) := by
  refine List.Pairwise.map _ (fun a b hab => ?_) (List.pairwise_lt_range n)
  exact Nat.mul_lt_mul_of_lt_of_le hab le_rfl hs

/-- For `1 ≤ T < L` the downsampled index list splits as the multiples of
`step` below `L` followed by the conditional final index. -/
lemma buildDownsampleIndices_eq_of_lt {L T : Nat} (hT : 1 ≤ T) (hL : T < L) :
    buildDownsampleIndices L T =
      if ((List.range ((L + (L + T - 1) / T - 1) / ((L + T - 1) / T))).map
            (fun k => k * ((L + T - 1) / T))).getLast? ≠ some (L - 1) then
        ((List.range ((L + (L + T - 1) / T - 1) / ((L + T - 1) / T))).map
            (fun k => k * ((L + T - 1) / T))) ++ [L - 1]
      else
        (List.range ((L + (L + T - 1) / T - 1) / ((L + T - 1) / T))).map
          (fun k => k * ((L + T - 1) / T)) := by
  unfold buildDownsampleIndices
  rw [if_neg (by omega : ¬ L ≤ T), if_neg (by omega : ¬ T = 0)]

/-- The step computed for `1 ≤ T < L` is positive. -/
lemma one_le_step {L T : Nat} (hT : 1 ≤ T) (hL : T < L) : 1 ≤ (L + T - 1) / T := by
  rw [ceilDiv_eq_pred_div_add_one hT (by omega)]
  exact Nat.le_add_left 1 _

/-- With `1 ≤ T < L` and `s = ceil(L / T)`, we have `L ≤ s * T`. -/
lemma le_step_mul {L T : Nat} (hT : 1 ≤ T) (hL : T < L) :
    L ≤ ((L + T - 1) / T) * T := by
  rw [ceilDiv_eq_pred_div_add_one hT (by omega)]
  have := lt_div_add_one_mul (a := L - 1) hT
  omega

/-- The loop collects at most `T` indices: `ceil(L / step) ≤ T`. -/
lemma numIter_le {L T : Nat} (hT : 1 ≤ T) (hL : T < L) :
    (L + (L + T - 1) / T - 1) / ((L + T - 1) / T) ≤ T := by
  have hs1 : 1 ≤ (L + T - 1) / T := one_le_step hT hL
  have hLs : L ≤ ((L + T - 1) / T) * T := le_step_mul hT hL
  set s := (L + T - 1) / T with hsdef
  rw [ceilDiv_eq_pred_div_add_one hs1 (by omega)]
  have h2 : (L - 1) / s < T := by
    rw [Nat.div_lt_iff_lt_mul hs1]
    calc L - 1 < L := by omega
      _ ≤ s * T := hLs
      _ = T * s := by ring
  exact Nat.succ_le_of_lt h2

/-- C1 (amended): for every length `L` and positive target `T`,
`buildDownsampleIndices L T` has length at most `T + 1`, is strictly
ascending, contains index `0` whenever `L ≥ 1`, equals `[0, …, L-1]`
whenever `L ≤ T`, and for `L > T` contains the final index `L - 1` and
consists exactly of the multiples of `step = ceil(L / T)` below `L`
together with `L - 1`. -/
theorem buildDownsampleIndices_spec (L T : Nat) (hT : 1 ≤ T) :
    (buildDownsampleIndices L T).length ≤ T + 1 ∧
    (buildDownsampleIndices L T).Sorted (· < ·) ∧
    (1 ≤ L → 0 ∈ buildDownsampleIndices L T) ∧
    (L ≤ T → buildDownsampleIndices L T = List.range L) ∧
    (T < L →
      (L - 1) ∈ buildDownsampleIndices L T ∧
      ∀ j, j ∈ buildDownsampleIndices L T ↔ (j < L ∧ (L + T - 1) / T ∣ j) ∨ j = L - 1) := by
  by_cases hLT : L ≤ T
  · have he : buildDownsampleIndices L T = List.range L := by
      unfold buildDownsampleIndices
      rw [if_pos hLT]
    refine ⟨?_, ?_, ?_, fun _ => he, fun h => absurd h (by omega)⟩
    · rw [he, List.length_range]; omega
    · rw [he]; exact List.pairwise_lt_range L
    · intro hL1; rw [he]; exact List.mem_range.mpr (by omega)
  · push_neg at hLT
    have hL1 : 1 ≤ L := by omega
    have hs1 := one_le_step hT hLT
    have hnle := numIter_le hT hLT
    have hform := buildDownsampleIndices_eq_of_lt hT hLT
    have hnum := ceilDiv_eq_pred_div_add_one hs1 hL1
    have hmem := mem_multiples_iff (L := L) hs1 hL1
    have hsorted := sorted_multiples ((L + (L + T - 1) / T - 1) / ((L + T - 1) / T))
      ((L + T - 1) / T) hs1
    have hmlL := Nat.div_mul_le_self (L - 1) ((L + T - 1) / T)
    set s := (L + T - 1) / T with hsdef
    set m := (L - 1) / s with hmdef
    set base := (List.range ((L + s - 1) / s)).map (fun k => k * s) with hbdef
    have hlen : base.length = (L + s - 1) / s := by
      rw [hbdef, List.length_map, List.length_range]
    have hsplit : base = (List.range m).map (fun k => k * s) ++ [m * s] := by
      rw [hbdef, hnum, List.range_succ, List.map_append, List.map_singleton]
    have hlast : base.getLast? = some (m * s) := by
      rw [hsplit]
      exact List.getLast?_concat _
    have hub : ∀ j ∈ base, j ≤ m * s := by
      intro j hj
      rw [hsplit] at hj
      rcases List.mem_append.mp hj with h | h
      · obtain ⟨k, hk, rfl⟩ := List.mem_map.mp h
        exact Nat.mul_le_mul_right s (Nat.le_of_lt (List.mem_range.mp hk))
      · rw [List.mem_singleton] at h
        omega
    have hzero : 0 ∈ base := (hmem 0).mpr ⟨by omega, dvd_zero s⟩
    by_cases hend : base.getLast? = some (L - 1)
    · have heq : m * s = L - 1 := by
        rw [hlast] at hend
        exact Option.some.inj hend
      have hres : buildDownsampleIndices L T = base := by
        rw [hform, if_neg (fun h => h hend)]
      refine ⟨?_, ?_, fun _ => ?_, fun h => absurd h (by omega), fun _ => ⟨?_, fun j => ?_⟩⟩
      · rw [hres, hlen]; omega
      · rw [hres]; exact hsorted
      · rw [hres]; exact hzero
      · rw [hres, ← heq]
        exact (hmem _).mpr ⟨by omega, dvd_mul_left s m⟩
      · rw [hres, hmem j]
        constructor
        · exact Or.inl
        · rintro (h | rfl)
          · exact h
          · exact ⟨by omega, heq ▸ dvd_mul_left s m⟩
    · have hne : m * s ≠ L - 1 := by
        rw [hlast] at hend
        exact fun h => hend (by rw [h])
      have hres : buildDownsampleIndices L T = base ++ [L - 1] := by
        rw [hform, if_pos hend]
      refine ⟨?_, ?_, fun _ => ?_, fun h => absurd h (by omega), fun _ => ⟨?_, fun j => ?_⟩⟩
      · rw [hres, List.length_append, hlen]
        simp only [List.length_singleton]
        omega
      · rw [hres]
        refine List.pairwise_append.mpr ⟨hsorted, List.pairwise_singleton _ _, ?_⟩
        intro x hx y hy
        rw [List.mem_singleton] at hy
        subst hy
        have h1 := hub x hx
        have h2 := (hmem x).mp hx
        omega
      · rw [hres]
        exact List.mem_append_left _ hzero
      · rw [hres]
        exact List.mem_append_right _ (List.mem_singleton.mpr rfl)
      · rw [hres, List.mem_append, List.mem_singleton, hmem j]

/-- C1 counterexample to the claim as stated: for `L = 0` the result is
empty, so it does not contain index `0`; and for `T = 0 < L` the result
`[0, L-1]` can exceed the stated length bound `T + 1`. -/
theorem buildDownsampleIndices_claim_cex :
    ¬ (0 ∈ buildDownsampleIndices 0 300) ∧
    ¬ ((buildDownsampleIndices 2 0).length ≤ 0 + 1) := by decide

/-- Witness for `buildDownsampleIndices_spec` at `L = 5`, `T = 2`. -/
theorem buildDownsampleIndices_spec_witness :
    (1 ≤ 2) ∧
    ((buildDownsampleIndices 5 2).length ≤ 2 + 1 ∧
      (buildDownsampleIndices 5 2).Sorted (· < ·) ∧
      (1 ≤ 5 → 0 ∈ buildDownsampleIndices 5 2) ∧
      (5 ≤ 2 → buildDownsampleIndices 5 2 = List.range 5) ∧
      (2 < 5 →
        (5 - 1) ∈ buildDownsampleIndices 5 2 ∧
        ∀ j, j ∈ buildDownsampleIndices 5 2 ↔ (j < 5 ∧ (5 + 2 - 1) / 2 ∣ j) ∨ j = 5 - 1)) :=
  ⟨by decide, buildDownsampleIndices_spec 5 2 (by decide)⟩

/-! ## Data model (App.vue lines 36–113)

JavaScript numbers are modelled as `ℚ`; every optional field of a
`SampleRow` is an `Option`.  `__source_file__` is rendered as
`sourceFile`. -/

structure OverviewCards where
  total : ℚ
  anomalies : ℚ
  anomaly_rate : ℚ
  threshold : ℚ
deriving DecidableEq

structure TimelineSeries where
  name : String
  data : List (Option ℚ)
deriving DecidableEq

structure TimelineResponse where
  labels : List String
  series : List TimelineSeries
deriving DecidableEq

structure SeverityResponse where
  labels : List String
  data : List ℚ
deriving DecidableEq

structure DistributionResponse where
  bins : List (Option ℚ)
  counts : List ℚ
deriving DecidableEq

structure TrendResponse where
  labels : List String
  data : List ℚ
deriving DecidableEq

structure PieBarResponse where
  labels : List String
  data : List ℚ
deriving DecidableEq

structure SampleRow where
  Destination : Option String := none
  Dst_Port : Option ℚ := none
  Flow_ID : Option String := none
  Length : Option ℚ := none
  Length_Scaled : Option ℚ := none
  Protocol : Option String := none
  Protocol_Enc : Option ℚ := none
  Source : Option String := none
  Src_Port : Option ℚ := none
  Time : Option String := none
  anomaly_score : Option ℚ := none
  sourceFile : Option String := none
deriving DecidableEq

structure PingResponse where
  status : String
deriving DecidableEq

/-- Response of `/table/samples`; `rows` may be absent (`table.rows ?? []`). -/
structure TableResponse where
  rows : Option (List SampleRow)
deriving DecidableEq

/-- The component's reactive state.  `lastUpdatedSet` records whether
`lastUpdated` holds a `Date` (the `Date` value itself is opaque). -/
structure DashboardState where
  globalLoading : Bool
  tableLoading : Bool
  apiHealthy : Option Bool
  lastUpdatedSet : Bool
  cards : OverviewCards
  timelineRaw : TimelineResponse
  severityRaw : SeverityResponse
  distributionRaw : DistributionResponse
  trendRaw : TrendResponse
  topDstRaw : PieBarResponse
  tableRows : List SampleRow
deriving DecidableEq

/-- One fetch cycle's network outcomes, one per endpoint: `Except.ok`
models a 2xx response with parsed JSON, `Except.error` models a transport
failure or non-2xx status (`safeFetchJson` throws). -/
structure NetworkEnv where
  ping : Except Unit PingResponse
  overview : Except Unit OverviewCards
  timeline : Except Unit TimelineResponse
  severity : Except Unit SeverityResponse
  distribution : Except Unit DistributionResponse
  trend : Except Unit TrendResponse
  topDst : Except Unit PieBarResponse
  table : Except Unit TableResponse

/-- The endpoints `fetchAll` can contact. -/
inductive Endpoint
  | ping
  | overview
  | timeline
  | severity
  | distribution
  | trend
  | topDst
  | table
deriving DecidableEq

/-- All eight endpoints, in the order they are issued. -/
def allEndpoints : List Endpoint :=
  [.ping, .overview, .timeline, .severity, .distribution, .trend, .topDst, .table]

/-- The values destructured from the `Promise.all`. -/
structure BatchData where
  overview : OverviewCards
  timeline : TimelineResponse
  severity : SeverityResponse
  distribution : DistributionResponse
  trend : TrendResponse
  topDst : PieBarResponse
  table : TableResponse

/-- `Promise.all` over the seven data endpoints: succeeds with all seven
values iff every request succeeds; rejects as a whole otherwise. -/
def runBatch (env : NetworkEnv) : Except Unit BatchData := do
  let ov ← env.overview
  let tl ← env.timeline
  let sv ← env.severity
  let ds ← env.distribution
  let tr ← env.trend
  let td ← env.topDst
  let tb ← env.table
  return ⟨ov, tl, sv, ds, tr, td, tb⟩

/-- Embedding of `fetchAll` (App.vue lines 156–206) as a state transition.
It returns the new state together with the list of endpoints contacted.
The `try` block first awaits `/ping`; on success it sets `apiHealthy`
from the status string and *continues into the `Promise.all` regardless*
(the source has no early return on an unhealthy status).  The `catch`
sets `apiHealthy := false` and clears `tableRows`; the `finally` clears
both loading flags. -/
def fetchAll (env : NetworkEnv) (s : DashboardState) : DashboardState × List Endpoint :=
  let s0 := { s with globalLoading := true, tableLoading := true }
  match env.ping with
  | Except.error _ =>
    ({ s0 with apiHealthy := some false, tableRows := [],
               globalLoading := false, tableLoading := false }, [Endpoint.ping])
  | Except.ok ping =>
    let s1 := { s0 with apiHealthy := some (ping.status == "ok" || ping.status == "alive") }
    match runBatch env with
    | Except.error _ =>
      ({ s1 with apiHealthy := some false, tableRows := [],
                 globalLoading := false, tableLoading := false }, allEndpoints)
    | Except.ok b =>
      ({ s1 with cards := b.overview, timelineRaw := b.timeline, severityRaw := b.severity,
                 distributionRaw := b.distribution, trendRaw := b.trend, topDstRaw := b.topDst,
                 tableRows := b.table.rows.getD [], lastUpdatedSet := true,
                 globalLoading := false, tableLoading := false }, allEndpoints)

/-- Initial reactive state (App.vue lines 92–113). -/
def initialState : DashboardState :=
  { globalLoading := true,
    tableLoading := false,
    apiHealthy := none,
    lastUpdatedSet := false,
    cards := ⟨0, 0, 0, 0⟩,
    timelineRaw := ⟨[], []⟩,
    severityRaw := ⟨[], []⟩,
    distributionRaw := ⟨[], []⟩,
    trendRaw := ⟨[], []⟩,
    topDstRaw := ⟨[], []⟩,
    tableRows := [] }

/-- If any of the seven data requests fails, the whole batch rejects. -/
lemma runBatch_error_of (env : NetworkEnv)
    (h : env.overview = Except.error () ∨ env.timeline = Except.error () ∨
         env.severity = Except.error () ∨ env.distribution = Except.error () ∨
         env.trend = Except.error () ∨ env.topDst = Except.error () ∨
         env.table = Except.error ()) :
    runBatch env = Except.error () := by
  unfold runBatch
  rcases h with h | h | h | h | h | h | h <;> rw [h] <;>
    cases env.overview <;> cases env.timeline <;> cases env.severity <;>
      cases env.distribution <;> cases env.trend <;> cases env.topDst <;>
      cases env.table <;> rfl

/-- C2 (amended): when `/ping` succeeds with a status that is neither
`"ok"` nor `"alive"`, `fetchAll` sets the health flag to `false` but does
*not* abort: all remaining endpoints are still contacted.  Only if some
batch request then fails is the table cleared and the chart state left
unchanged; if the whole batch succeeds, every piece of chart, KPI and
table state is replaced by the fetched values (health stays `false`). -/
theorem fetchAll_unhealthy_ping (env : NetworkEnv) (s : DashboardState) (p : PingResponse)
    (hp : env.ping = Except.ok p) (h1 : p.status ≠ "ok") (h2 : p.status ≠ "alive") :
    (fetchAll env s).1.apiHealthy = some false ∧
    (fetchAll env s).2 = allEndpoints ∧
    (runBatch env = Except.error () →
      (fetchAll env s).1.tableRows = [] ∧
      (fetchAll env s).1.cards = s.cards ∧
      (fetchAll env s).1.timelineRaw = s.timelineRaw ∧
      (fetchAll env s).1.severityRaw = s.severityRaw ∧
      (fetchAll env s).1.distributionRaw = s.distributionRaw ∧
      (fetchAll env s).1.trendRaw = s.trendRaw ∧
      (fetchAll env s).1.topDstRaw = s.topDstRaw) ∧
    (∀ b, runBatch env = Except.ok b →
      (fetchAll env s).1.cards = b.overview ∧
      (fetchAll env s).1.timelineRaw = b.timeline ∧
      (fetchAll env s).1.severityRaw = b.severity ∧
      (fetchAll env s).1.distributionRaw = b.distribution ∧
      (fetchAll env s).1.trendRaw = b.trend ∧
      (fetchAll env s).1.topDstRaw = b.topDst ∧
      (fetchAll env s).1.tableRows = b.table.rows.getD [] ∧
      (fetchAll env s).1.lastUpdatedSet = true) := by
  have hstat : (p.status == "ok" || p.status == "alive") = false := by
    simp [h1, h2]
  cases hb : runBatch env with
  | error e =>
    refine ⟨?_, ?_, fun _ => ?_, fun b hob => ?_⟩ <;>
      simp_all [fetchAll, hp, hb, hstat]
  | ok b' =>
    refine ⟨?_, ?_, fun hco => ?_, fun b hob => ?_⟩ <;>
      simp_all [fetchAll, hp, hb, hstat]

/-- A network environment in which `/ping` answers `{status: "down"}` and
every data endpoint succeeds with a distinctive payload. -/
def envPingDown : NetworkEnv :=
  { ping := Except.ok ⟨"down"⟩,
    overview := Except.ok ⟨1, 1, 1, 1⟩,
    timeline := Except.ok ⟨["t1"], [⟨"total", [some 1]⟩]⟩,
    severity := Except.ok ⟨["low"], [1]⟩,
    distribution := Except.ok ⟨[some 0, some 1], [1]⟩,
    trend := Except.ok ⟨["d1"], [1]⟩,
    topDst := Except.ok ⟨["ip1"], [1]⟩,
    table := Except.ok ⟨some [{ Source := some "1.2.3.4" }]⟩ }

/-- C2 counterexample to the claim as stated: with ping status `"down"`
and a succeeding batch, `fetchAll` still contacts the data endpoints, the
table ends up populated (not cleared), and the chart state changes. -/
theorem fetchAll_unhealthy_ping_cex :
    (fetchAll envPingDown initialState).2 ≠ [Endpoint.ping] ∧
    Endpoint.overview ∈ (fetchAll envPingDown initialState).2 ∧
    (fetchAll envPingDown initialState).1.tableRows ≠ [] ∧
    (fetchAll envPingDown initialState).1.timelineRaw ≠ initialState.timelineRaw ∧
    (fetchAll envPingDown initialState).1.apiHealthy = some false := by
  refine ⟨by decide, by decide, ?_, ?_, by decide⟩
  · show [({ Source := some "1.2.3.4" } : SampleRow)] ≠ []
    simp
  · show (⟨["t1"], [⟨"total", [some 1]⟩]⟩ : TimelineResponse) ≠ ⟨[], []⟩
    simp

/-- Witness for `fetchAll_unhealthy_ping` at the concrete environment
`envPingDown` and the initial state. -/
theorem fetchAll_unhealthy_ping_witness :
    (envPingDown.ping = Except.ok ⟨"down"⟩ ∧ "down" ≠ "ok" ∧ "down" ≠ "alive") ∧
    ((fetchAll envPingDown initialState).1.apiHealthy = some false ∧
      (fetchAll envPingDown initialState).2 = allEndpoints ∧
      (runBatch envPingDown = Except.error () →
        (fetchAll envPingDown initialState).1.tableRows = [] ∧
        (fetchAll envPingDown initialState).1.cards = initialState.cards ∧
        (fetchAll envPingDown initialState).1.timelineRaw = initialState.timelineRaw ∧
        (fetchAll envPingDown initialState).1.severityRaw = initialState.severityRaw ∧
        (fetchAll envPingDown initialState).1.distributionRaw = initialState.distributionRaw ∧
        (fetchAll envPingDown initialState).1.trendRaw = initialState.trendRaw ∧
        (fetchAll envPingDown initialState).1.topDstRaw = initialState.topDstRaw) ∧
      (∀ b, runBatch envPingDown = Except.ok b →
        (fetchAll envPingDown initialState).1.cards = b.overview ∧
        (fetchAll envPingDown initialState).1.timelineRaw = b.timeline ∧
        (fetchAll envPingDown initialState).1.severityRaw = b.severity ∧
        (fetchAll envPingDown initialState).1.distributionRaw = b.distribution ∧
        (fetchAll envPingDown initialState).1.trendRaw = b.trend ∧
        (fetchAll envPingDown initialState).1.topDstRaw = b.topDst ∧
        (fetchAll envPingDown initialState).1.tableRows = b.table.rows.getD [] ∧
        (fetchAll envPingDown initialState).1.lastUpdatedSet = true)) :=
  ⟨⟨rfl, by decide, by decide⟩,
    fetchAll_unhealthy_ping envPingDown initialState ⟨"down"⟩ rfl (by decide) (by decide)⟩

/-- C3: when the ping reports a healthy status but some request of the
parallel batch fails, `fetchAll` ends with the health flag `false`, the
table cleared, both loading flags `false`, and every piece of chart/KPI
state (and the fetch timestamp) unchanged — no partial update. -/
theorem fetchAll_batch_failure (env : NetworkEnv) (s : DashboardState) (p : PingResponse)
    (hp : env.ping = Except.ok p) (hs : p.status = "ok" ∨ p.status = "alive")
    (hb : env.overview = Except.error () ∨ env.timeline = Except.error () ∨
          env.severity = Except.error () ∨ env.distribution = Except.error () ∨
          env.trend = Except.error () ∨ env.topDst = Except.error () ∨
          env.table = Except.error ()) :
    (fetchAll env s).1.apiHealthy = some false ∧
    (fetchAll env s).1.tableRows = [] ∧
    (fetchAll env s).1.globalLoading = false ∧
    (fetchAll env s).1.tableLoading = false ∧
    (fetchAll env s).1.cards = s.cards ∧
    (fetchAll env s).1.timelineRaw = s.timelineRaw ∧
    (fetchAll env s).1.severityRaw = s.severityRaw ∧
    (fetchAll env s).1.distributionRaw = s.distributionRaw ∧
    (fetchAll env s).1.trendRaw = s.trendRaw ∧
    (fetchAll env s).1.topDstRaw = s.topDstRaw ∧
    (fetchAll env s).1.lastUpdatedSet = s.lastUpdatedSet := by
  unfold fetchAll
  rw [hp, runBatch_error_of env hb]
  exact ⟨rfl, rfl, rfl, rfl, rfl, rfl, rfl, rfl, rfl, rfl, rfl⟩

/-- A network environment with a healthy ping and a failing overview
request (the other data requests succeed). -/
def envBatchFail : NetworkEnv :=
  { ping := Except.ok ⟨"ok"⟩,
    overview := Except.error (),
    timeline := Except.ok ⟨["t1"], [⟨"total", [some 1]⟩]⟩,
    severity := Except.ok ⟨["low"], [1]⟩,
    distribution := Except.ok ⟨[some 0, some 1], [1]⟩,
    trend := Except.ok ⟨["d1"], [1]⟩,
    topDst := Except.ok ⟨["ip1"], [1]⟩,
    table := Except.ok ⟨some [{ Source := some "1.2.3.4" }]⟩ }

/-- Witness for `fetchAll_batch_failure` at `envBatchFail` and the
initial state. -/
theorem fetchAll_batch_failure_witness :
    (envBatchFail.ping = Except.ok ⟨"ok"⟩ ∧ ("ok" = "ok" ∨ "ok" = "alive") ∧
      envBatchFail.overview = Except.error ()) ∧
    ((fetchAll envBatchFail initialState).1.apiHealthy = some false ∧
      (fetchAll envBatchFail initialState).1.tableRows = [] ∧
      (fetchAll envBatchFail initialState).1.globalLoading = false ∧
      (fetchAll envBatchFail initialState).1.tableLoading = false ∧
      (fetchAll envBatchFail initialState).1.cards = initialState.cards ∧
      (fetchAll envBatchFail initialState).1.timelineRaw = initialState.timelineRaw ∧
      (fetchAll envBatchFail initialState).1.severityRaw = initialState.severityRaw ∧
      (fetchAll envBatchFail initialState).1.distributionRaw = initialState.distributionRaw ∧
      (fetchAll envBatchFail initialState).1.trendRaw = initialState.trendRaw ∧
      (fetchAll envBatchFail initialState).1.topDstRaw = initialState.topDstRaw ∧
      (fetchAll envBatchFail initialState).1.lastUpdatedSet = initialState.lastUpdatedSet) :=
  ⟨⟨rfl, Or.inl rfl, rfl⟩,
    fetchAll_batch_failure envBatchFail initialState ⟨"ok"⟩ rfl (Or.inl rfl) (Or.inl rfl)⟩

/-! ## Model of the JavaScript `Date` runtime

`new Date(label)` together with `getFullYear`/`getMonth`/`getDate` is
modelled for strings in the ECMAScript Date Time String Format
(`YYYY[-MM[-DD]][THH:mm[:ss[.sss]][Z|±HH:MM]]`); implementation-defined
fallback formats are modelled as unparseable.  Local-time rendering uses
a fixed UTC+9 offset (Asia/Seoul, no DST) — the zone the dashboard pins
in its own timeline request. -/

/-- The modelled environment's local offset, in minutes east of UTC. -/
def seoulOffsetMin : Int := 540

/-- Gregorian leap-year test. -/
def isLeapYear (y : Int) : Bool :=
  y % 4 == 0 && (y % 100 != 0 || y % 400 == 0)

/-- Number of days in month `m` (1–12) of year `y`. -/
def daysInMonth (y : Int) (m : Nat) : Nat :=
  if m = 2 then (if isLeapYear y then 29 else 28)
  else if m = 4 ∨ m = 6 ∨ m = 9 ∨ m = 11 then 30
  else 31

/-- Days since 1970-01-01 of the civil date `(y, m, d)` (proleptic
Gregorian; Hinnant's `days_from_civil` with floor division for the era). -/
def daysFromCivil (y : Int) (m d : Nat) : Int :=
  let y' : Int := if m ≤ 2 then y - 1 else y
  let era : Int := Int.fdiv y' 400
  let yoe : Int := y' - era * 400
  let mp : Int := (Int.ofNat m + 9) % 12
  let doy : Int := (153 * mp + 2) / 5 + Int.ofNat d - 1
  let doe : Int := yoe * 365 + yoe / 4 - yoe / 100 + doy
  era * 146097 + doe - 719468

/-- Civil date `(y, m, d)` of a count of days since 1970-01-01
(Hinnant's `civil_from_days`). -/
def civilFromDays (z : Int) : Int × Int × Int :=
  let z' : Int := z + 719468
  let era : Int := Int.fdiv z' 146097
  let doe : Int := z' - era * 146097
  let yoe : Int := (doe - doe / 1460 + doe / 36524 - doe / 146096) / 365
  let y : Int := yoe + era * 400
  let doy : Int := doe - (365 * yoe + yoe / 4 - yoe / 100)
  let mp : Int := (5 * doy + 2) / 153
  let d : Int := doy - (153 * mp + 2) / 5 + 1
  let m : Int := if mp < 10 then mp + 3 else mp - 9
  (if m ≤ 2 then y + 1 else y, m, d)

/-- Numeric value of a list of decimal digits. -/
def digitsVal (ds : List Char) : Nat :=
  ds.foldl (fun a c => a * 10 + (c.toNat - 48)) 0

/-- Read exactly `k` decimal digits from the front of `cs`. -/
def parseDigits (k : Nat) (cs : List Char) : Option (Nat × List Char) :=
  let ds := cs.take k
  if ds.length = k ∧ ds.all Char.isDigit then some (digitsVal ds, cs.drop k)
  else none

/-- Parse the date part `YYYY[-MM[-DD]]` of a Date Time String; absent
month/day default to `1`.  Month and day are validated. -/
def parseYMD (cs : List Char) : Option (Nat × Nat × Nat × List Char) := do
  let (y, cs1) ← parseDigits 4 cs
  match cs1 with
  | '-' :: cs2 => do
    let (mo, cs3) ← parseDigits 2 cs2
    if mo < 1 ∨ 12 < mo then none
    else
      match cs3 with
      | '-' :: cs4 => do
        let (d, cs5) ← parseDigits 2 cs4
        if d < 1 ∨ daysInMonth (Int.ofNat y) mo < d then none
        else some (y, mo, d, cs5)
      | _ => some (y, mo, 1, cs3)
  | _ => some (y, 1, 1, cs1)

/-- Parse the time part `HH:mm[:ss[.sss]][Z|±HH:MM]` of a Date Time
String; results are `(hour, minute, second, millisecond, utcOffsetMin?)`
where `none` means no offset was written (interpreted as local time). -/
def parseTimePart (cs : List Char) : Option (Nat × Nat × Nat × Nat × Option Int) := do
  let (h, cs1) ← parseDigits 2 cs
  match cs1 with
  | ':' :: cs2 => do
    let (mi, cs3) ← parseDigits 2 cs2
    if 59 < mi then none
    else do
      let (sec, msec, cs4) ←
        match cs3 with
        | ':' :: cs5 => do
          let (sec, cs6) ← parseDigits 2 cs5
          if 59 < sec then (none : Option (Nat × Nat × List Char))
          else
            match cs6 with
            | '.' :: cs7 => do
              let (f, cs8) ← parseDigits 3 cs7
              some (sec, f, cs8)
            | _ => some (sec, 0, cs6)
        | _ => some (0, 0, cs3)
      if 24 < h ∨ (h = 24 ∧ (mi ≠ 0 ∨ sec ≠ 0 ∨ msec ≠ 0)) then none
      else
        match cs4 with
        | [] => some (h, mi, sec, msec, none)
        | ['Z'] => some (h, mi, sec, msec, some 0)
        | c :: cs5 =>
          if c = '+' ∨ c = '-' then do
            let (oh, cs6) ← parseDigits 2 cs5
            match cs6 with
            | ':' :: cs7 => do
              let (om, cs8) ← parseDigits 2 cs7
              if cs8 = [] ∧ oh ≤ 23 ∧ om ≤ 59 then
                some (h, mi, sec, msec,
                  some ((if c = '+' then (1 : Int) else -1) * (Int.ofNat (oh * 60 + om))))
              else none
            | _ => none
          else none
  | _ => none

/-- Model of `new Date(label).getTime()` restricted to the ECMAScript
Date Time String Format: `none` models an Invalid Date, `some ms` the
time value in milliseconds since the epoch (UTC).  Date-only forms are
interpreted as UTC; date-time forms without an offset as local time. -/
def parseJsDate (s : String) : Option Int := do
  let (y, mo, d, rest) ← parseYMD s.toList
  let days := daysFromCivil (Int.ofNat y) mo d
  match rest with
  | [] => some (days * 86400000)
  | 'T' :: tcs => do
    let (h, mi, sec, msec, tz) ← parseTimePart tcs
    let timeMs : Int := Int.ofNat (((h * 3600 + mi * 60 + sec) * 1000 + msec))
    match tz with
    | some off => some (days * 86400000 + timeMs - off * 60000)
    | none => some (days * 86400000 + timeMs - seoulOffsetMin * 60000)
  | _ => none

/-- `String(n).padStart(2, '0')` for the month/day numbers. -/
def padTwo (n : Int) : String :=
  if 0 ≤ n ∧ n < 10 then "0" ++ toString n else toString n

/-- The `YYYY-MM-DD` rendering of a time value in the modelled local
zone: `getFullYear()`, `getMonth() + 1` and `getDate()` padded to two
digits and joined with dashes. -/
def renderYMD (ms : Int) : String :=
  let localMs := ms + seoulOffsetMin * 60000
  let days := Int.fdiv localMs 86400000
  match civilFromDays days with
  | (y, m, d) => toString y ++ "-" ++ padTwo m ++ "-" ++ padTwo d

/-- Embedding of `formatDateLabel` (App.vue lines 116–123): an
unparseable label passes through unchanged, a parseable one is rendered
as `YYYY-MM-DD` of its local calendar date. -/
def formatDateLabel (label : String) : String :=
  match parseJsDate label with
  | none => label
  | some ms => renderYMD ms

/-- C8: `formatDateLabel` returns an unparseable label unchanged and
renders a parseable one as the `YYYY-MM-DD` form of its (local) calendar
date; in particular `"2025-11-11T10:00:00Z"` becomes `"2025-11-11"` and
`"not-a-date"` passes through unchanged. -/
theorem formatDateLabel_spec :
    (∀ label : String, parseJsDate label = none → formatDateLabel label = label) ∧
    (∀ label ms, parseJsDate label = some ms → formatDateLabel label = renderYMD ms) ∧
    formatDateLabel "2025-11-11T10:00:00Z" = "2025-11-11" ∧
    formatDateLabel "not-a-date" = "not-a-date" := by
  refine ⟨?_, ?_, by decide, by decide⟩
  · intro label h
    unfold formatDateLabel
    rw [h]
  · intro label ms h
    unfold formatDateLabel
    rw [h]

/-- Witness for `formatDateLabel_spec` at `"not-a-date"`. -/
theorem formatDateLabel_spec_witness :
    parseJsDate "not-a-date" = none ∧ formatDateLabel "not-a-date" = "not-a-date" :=
  ⟨by decide, formatDateLabel_spec.1 "not-a-date" (by decide)⟩

/-! ## `filenameToDateLabel` (App.vue lines 126–131) -/

/-- Eight consecutive decimal digits start at position `i` of `cs`. -/
def hasEightDigitsAt (cs : List Char) (i : Nat) : Prop :=
  ((cs.drop i).take 8).length = 8 ∧ ((cs.drop i).take 8).all Char.isDigit

instance (cs : List Char) (i : Nat) : Decidable (hasEightDigitsAt cs i) := by
  unfold hasEightDigitsAt
  infer_instance

/-- The regex scan of `/(\d{4})(\d{2})(\d{2})/`: the first (leftmost)
position at which eight consecutive decimal digits start, returned as
those eight digit characters. -/
def firstEightDigitRun : List Char → Option (List Char)
  | [] => none
  | c :: rest =>
    if hasEightDigitsAt (c :: rest) 0 then some ((c :: rest).take 8)
    else firstEightDigitRun rest

/-- Embedding of `filenameToDateLabel`: if the label contains no 8-digit
run it is returned unchanged; otherwise the first such run `YYYYMMDD` is
rendered as `YYYY-MM-DD`. -/
def filenameToDateLabel (label : String) : String :=
  match firstEightDigitRun label.toList with
  | none => label
  | some ds =>
    String.mk (ds.take 4) ++ "-" ++ String.mk ((ds.drop 4).take 2) ++ "-" ++
      String.mk (ds.drop 6)

/-- If no position of `cs` starts an 8-digit run, the scan fails. -/
lemma firstEightDigitRun_eq_none {cs : List Char}
    (h : ∀ i, ¬ hasEightDigitsAt cs i) : firstEightDigitRun cs = none := by
  induction cs with
  | nil => rfl
  | cons c rest ih =>
    unfold firstEightDigitRun
    rw [if_neg (h 0)]
    exact ih (fun i => h (i + 1))

/-- If position `i` is the least position of `cs` starting an 8-digit
run, the scan returns exactly those eight characters. -/
lemma firstEightDigitRun_eq_some {cs : List Char} {i : Nat}
    (h : hasEightDigitsAt cs i) (hmin : ∀ j, j < i → ¬ hasEightDigitsAt cs j) :
    firstEightDigitRun cs = some ((cs.drop i).take 8) := by
  induction cs generalizing i with
  | nil =>
    exact absurd h (by simp [hasEightDigitsAt])
  | cons c rest ih =>
    unfold firstEightDigitRun
    cases i with
    | zero =>
      rw [if_pos h]
      simp
    | succ k =>
      rw [if_neg (hmin 0 (Nat.succ_pos k))]
      exact ih (i := k) h (fun j hj => hmin (j + 1) (by omega))

/-- C9: `filenameToDateLabel` returns a label with no 8-digit run
unchanged; otherwise it takes the first 8-digit run `YYYYMMDD` and
renders it as `YYYY-MM-DD`; in particular
`"processed_packets_20251111_111134.csv"` yields `"2025-11-11"`. -/
theorem filenameToDateLabel_spec :
    (∀ label : String, (∀ i, ¬ hasEightDigitsAt label.toList i) →
      filenameToDateLabel label = label) ∧
    (∀ label : String, ∀ i, hasEightDigitsAt label.toList i →
      (∀ j, j < i → ¬ hasEightDigitsAt label.toList j) →
      filenameToDateLabel label =
        String.mk (((label.toList.drop i).take 8).take 4) ++ "-" ++
        String.mk ((((label.toList.drop i).take 8).drop 4).take 2) ++ "-" ++
        String.mk (((label.toList.drop i).take 8).drop 6)) ∧
    filenameToDateLabel "processed_packets_20251111_111134.csv" = "2025-11-11" := by
  refine ⟨?_, ?_, by decide⟩
  · intro label h
    unfold filenameToDateLabel
    rw [firstEightDigitRun_eq_none h]
  · intro label i h hmin
    unfold filenameToDateLabel
    rw [firstEightDigitRun_eq_some h hmin]

/-- Witness for `filenameToDateLabel_spec` at `"a20251111b"`, whose
first (and only) 8-digit run starts at position 1. -/
theorem filenameToDateLabel_spec_witness :
    hasEightDigitsAt "a20251111b".toList 1 ∧
    (∀ j, j < 1 → ¬ hasEightDigitsAt "a20251111b".toList j) ∧
    filenameToDateLabel "a20251111b" =
      String.mk ((("a20251111b".toList.drop 1).take 8).take 4) ++ "-" ++
      String.mk (((("a20251111b".toList.drop 1).take 8).drop 4).take 2) ++ "-" ++
      String.mk ((("a20251111b".toList.drop 1).take 8).drop 6) :=
  ⟨by decide, by decide,
    filenameToDateLabel_spec.2.1 "a20251111b" 1 (by decide) (by decide)⟩

/-! ## `timelineChartData` (App.vue lines 237–265) -/

/-- The Korean display names for the timeline series (App.vue 216–221). -/
def timelineLabelMap (name : String) : Option String :=
  if name = "total" then some "전체 트래픽"
  else if name = "anomalies" then some "이상 트래픽"
  else if name = "normal" then some "정상 트래픽"
  else if name = "rate" then some "이상 비율"
  else none

/-- The five line colours (App.vue 233). -/
def lineColors : List String := ["#16a34a", "#ef4444", "#64748b", "#2563eb", "#f97316"]

/-- JavaScript `arr[i] ?? null` on a number-or-null array: a missing
element (index out of range) and an explicit `null` both give `null`. -/
def jsIndex (l : List (Option ℚ)) (i : Nat) : Option ℚ :=
  (l[i]?).getD none

/-- One timeline chart dataset (only the data-bearing fields of the
object literal are modelled; the numeric styling constants are fixed). -/
structure TimelineDataset where
  label : String
  data : List (Option ℚ)
  borderColor : String
  backgroundColor : String
deriving DecidableEq

/-- The dataset built from series `s` at position `idx`. -/
def mkTimelineDataset (idx : Nat) (indices : List Nat) (s : TimelineSeries) :
    TimelineDataset :=
  { label := (timelineLabelMap s.name).getD s.name,
    data := indices.map (fun i => jsIndex s.data i),
    borderColor := (lineColors[idx % lineColors.length]?).getD "",
    backgroundColor := ((lineColors[idx % lineColors.length]?).getD "") ++ "33" }

/-- `series.map((s, idx) => …)` with its running index. -/
def mkTimelineDatasets (idx : Nat) (indices : List Nat) :
    List TimelineSeries → List TimelineDataset
  | [] => []
  | s :: rest => mkTimelineDataset idx indices s :: mkTimelineDatasets (idx + 1) indices rest

/-- Embedding of the computed `timelineChartData`: empty labels or empty
series give the empty chart; otherwise one shared downsample index set
is applied to the labels (through `formatDateLabel`) and to every
series' data (through `arr[i] ?? null`). -/
def timelineChartData (raw : TimelineResponse) : List String × List TimelineDataset :=
  if raw.labels.isEmpty || raw.series.isEmpty then ([], [])
  else
    let indices := buildDownsampleIndices raw.labels.length 300
    (indices.map (fun i => formatDateLabel ((raw.labels[i]?).getD "")),
     mkTimelineDatasets 0 indices raw.series)

lemma mkTimelineDatasets_length (idx : Nat) (indices : List Nat)
    (l : List TimelineSeries) : (mkTimelineDatasets idx indices l).length = l.length := by
  induction l generalizing idx with
  | nil => rfl
  | cons s rest ih => simp [mkTimelineDatasets, ih]

lemma mkTimelineDatasets_getElem? (idx : Nat) (indices : List Nat)
    (l : List TimelineSeries) (k : Nat) :
    (mkTimelineDatasets idx indices l)[k]? =
      (l[k]?).map (fun s => mkTimelineDataset (idx + k) indices s) := by
  induction l generalizing idx k with
  | nil => simp [mkTimelineDatasets]
  | cons s rest ih =>
    cases k with
    | zero => simp [mkTimelineDatasets]
    | succ k' =>
      have harith : idx + (k' + 1) = (idx + 1) + k' := by omega
      simp only [mkTimelineDatasets, List.getElem?_cons_succ, ih, harith]

/-- C6: with non-empty labels and series, `timelineChartData` maps one
shared downsample index set over the labels and over every series' data:
every dataset's data has exactly the labels' length, the `j`-th entry of
dataset `k` is `series[k].data[indices[j]] ?? null`, and in particular
it is `null` whenever that series' data is too short — the transform
never fails on misaligned input. -/
theorem timelineChartData_spec (raw : TimelineResponse)
    (h1 : raw.labels ≠ []) (h2 : raw.series ≠ []) :
    (timelineChartData raw).1.length = (buildDownsampleIndices raw.labels.length 300).length ∧
    (timelineChartData raw).2.length = raw.series.length ∧
    (∀ ds ∈ (timelineChartData raw).2, ds.data.length = (timelineChartData raw).1.length) ∧
    (∀ (k : Nat) (s : TimelineSeries), raw.series[k]? = some s →
      ∀ (j i : Nat), (buildDownsampleIndices raw.labels.length 300)[j]? = some i →
        ((timelineChartData raw).2[k]?.map (fun ds => ds.data[j]?)) =
          some (some ((s.data[i]?).getD none))) ∧
    (∀ (k : Nat) (s : TimelineSeries), raw.series[k]? = some s →
      ∀ (j i : Nat), (buildDownsampleIndices raw.labels.length 300)[j]? = some i →
        s.data.length ≤ i →
        ((timelineChartData raw).2[k]?.map (fun ds => ds.data[j]?)) = some (some none)) := by
  have hl : raw.labels.isEmpty = false := by
    cases hx : raw.labels with
    | nil => exact absurd hx h1
    | cons a l => rfl
  have hs : raw.series.isEmpty = false := by
    cases hx : raw.series with
    | nil => exact absurd hx h2
    | cons a l => rfl
  have hres : timelineChartData raw =
      ((buildDownsampleIndices raw.labels.length 300).map
          (fun i => formatDateLabel ((raw.labels[i]?).getD "")),
        mkTimelineDatasets 0 (buildDownsampleIndices raw.labels.length 300) raw.series) := by
    unfold timelineChartData
    rw [hl, hs]
    rfl
  have hmain : ∀ (k : Nat) (s : TimelineSeries), raw.series[k]? = some s →
      ∀ (j i : Nat), (buildDownsampleIndices raw.labels.length 300)[j]? = some i →
        ((timelineChartData raw).2[k]?.map (fun ds => ds.data[j]?)) =
          some (some ((s.data[i]?).getD none)) := by
    intro k s hk j i hj
    rw [hres]
    simp [mkTimelineDatasets_getElem?, hk, mkTimelineDataset, hj, jsIndex]
  refine ⟨?_, ?_, ?_, hmain, ?_⟩
  · rw [hres]
    simp
  · rw [hres]
    simp [mkTimelineDatasets_length]
  · intro ds hds
    rw [hres] at hds ⊢
    obtain ⟨k, hk⟩ := List.mem_iff_getElem?.mp hds
    rw [mkTimelineDatasets_getElem?] at hk
    cases hsk : raw.series[k]? with
    | none => rw [hsk] at hk; exact absurd hk (by simp)
    | some s =>
      rw [hsk] at hk
      simp at hk
      subst hk
      simp [mkTimelineDataset]
  · intro k s hk j i hj hlen
    have := hmain k s hk j i hj
    rw [this]
    have hnone : s.data[i]? = none := List.getElem?_eq_none hlen
    rw [hnone]
    rfl

/-- Witness for `timelineChartData_spec` at a concrete response whose
single series is shorter than its two labels. -/
theorem timelineChartData_spec_witness :
    ((["2025-11-11", "x"] : List String) ≠ [] ∧
      ([⟨"total", [some 1]⟩] : List TimelineSeries) ≠ []) ∧
    ((timelineChartData ⟨["2025-11-11", "x"], [⟨"total", [some 1]⟩]⟩).1.length =
        (buildDownsampleIndices 2 300).length ∧
      (timelineChartData ⟨["2025-11-11", "x"], [⟨"total", [some 1]⟩]⟩).2.length = 1 ∧
      (∀ ds ∈ (timelineChartData ⟨["2025-11-11", "x"], [⟨"total", [some 1]⟩]⟩).2,
        ds.data.length =
          (timelineChartData ⟨["2025-11-11", "x"], [⟨"total", [some 1]⟩]⟩).1.length) ∧
      (∀ (k : Nat) (s : TimelineSeries), ([⟨"total", [some 1]⟩] : List TimelineSeries)[k]? = some s →
        ∀ (j i : Nat), (buildDownsampleIndices 2 300)[j]? = some i →
          ((timelineChartData ⟨["2025-11-11", "x"], [⟨"total", [some 1]⟩]⟩).2[k]?.map
              (fun ds => ds.data[j]?)) = some (some ((s.data[i]?).getD none))) ∧
      (∀ (k : Nat) (s : TimelineSeries), ([⟨"total", [some 1]⟩] : List TimelineSeries)[k]? = some s →
        ∀ (j i : Nat), (buildDownsampleIndices 2 300)[j]? = some i →
          s.data.length ≤ i →
          ((timelineChartData ⟨["2025-11-11", "x"], [⟨"total", [some 1]⟩]⟩).2[k]?.map
              (fun ds => ds.data[j]?)) = some (some none))) :=
  ⟨⟨by decide, by decide⟩,
    timelineChartData_spec ⟨["2025-11-11", "x"], [⟨"total", [some 1]⟩]⟩
      (by decide) (by decide)⟩

/-! ## Pie tooltip ratio (App.vue lines 349–361) -/

/-- Embedding of the pie tooltip ratio: `total` is
`dataArr.reduce((sum, v) => sum + v, 0) || 1` (the `|| 1` replaces an
exactly-zero sum by `1`), and the displayed ratio is
`((value / total) * 100).toFixed(1)`. -/
def pieTooltipRatio (values : List ℚ) (v : ℚ) : String :=
  let total0 := values.foldl (fun sum x => sum + x) 0
  let total := if total0 = 0 then 1 else total0
  jsToFixed 1 (v / total * 100)

/-- The ratio as claim C4 words it: denominator `max(sum of values, 1)`. -/
def pieRatioClaimed (values : List ℚ) (v : ℚ) : String :=
  jsToFixed 1 (v / max values.sum 1 * 100)

lemma foldl_add_eq (l : List ℚ) (a : ℚ) :
    l.foldl (fun sum x => sum + x) a = a + l.sum := by
  induction l generalizing a with
  | nil => simp
  | cons x xs ih =>
    rw [List.foldl_cons, ih, List.sum_cons]
    ring

/-- C4 counterexample to the claim as stated: for the value list
`[0.5]` the code divides by the actual sum `0.5` (giving `100.0%`),
while the claimed formula `max(sum, 1)` would give `50.0%`. -/
theorem pieTooltipRatio_claim_cex :
    pieTooltipRatio [1/2] (1/2) = "100.0" ∧
    pieRatioClaimed [1/2] (1/2) = "50.0" ∧
    pieTooltipRatio [1/2] (1/2) ≠ pieRatioClaimed [1/2] (1/2) := by
  have h1 : pieTooltipRatio [1/2] (1/2) = "100.0" := by
    norm_num [pieTooltipRatio, jsToFixed]
    rfl
  have h2 : pieRatioClaimed [1/2] (1/2) = "50.0" := by
    norm_num [pieRatioClaimed, jsToFixed]
    rfl
  refine ⟨h1, h2, ?_⟩
  rw [h1, h2]
  decide

/-- C4 (amended): the pie tooltip ratio equals
`(v / (sum == 0 ? 1 : sum) * 100).toFixed(1)` — the denominator is the
actual sum unless it is exactly zero, in which case `1`; consequently
for an all-zero value list no division by zero occurs (the denominator
is `1`) and every slice's displayed ratio is `"0.0"`. -/
theorem pieTooltipRatio_spec (values : List ℚ) (v : ℚ) :
    pieTooltipRatio values v =
      jsToFixed 1 (v / (if values.sum = 0 then 1 else values.sum) * 100) ∧
    ((∀ x ∈ values, x = 0) → pieTooltipRatio values v = jsToFixed 1 (v * 100)) ∧
    ((∀ x ∈ values, x = 0) → v ∈ values → pieTooltipRatio values v = "0.0") := by
  have hfold : pieTooltipRatio values v =
      jsToFixed 1 (v / (if values.sum = 0 then 1 else values.sum) * 100) := by
    unfold pieTooltipRatio
    rw [foldl_add_eq, zero_add]
  have hzero : (∀ x ∈ values, x = 0) → pieTooltipRatio values v = jsToFixed 1 (v * 100) := by
    intro h
    rw [hfold, List.sum_eq_zero h, if_pos rfl, div_one]
  refine ⟨hfold, hzero, fun h hv => ?_⟩
  rw [hzero h, h v hv]
  norm_num [jsToFixed]
  rfl

/-- Witness for `pieTooltipRatio_spec` at the all-zero list `[0, 0]`. -/
theorem pieTooltipRatio_spec_witness :
    (∀ x ∈ [(0 : ℚ), 0], x = 0) ∧ (0 : ℚ) ∈ [(0 : ℚ), 0] ∧
    pieTooltipRatio [0, 0] 0 = "0.0" :=
  ⟨by decide, by decide, (pieTooltipRatio_spec [0, 0] 0).2.2 (by decide) (by decide)⟩

/-! ## `trendChartData` (App.vue lines 430–457) -/

/-- The data-bearing fields of the trend bar-chart dataset. -/
structure TrendChartDataset where
  label : String
  data : List ℚ
  backgroundColor : List String
  borderColor : List String
deriving DecidableEq

structure TrendChart where
  labels : List String
  datasets : List TrendChartDataset
deriving DecidableEq

/-- Embedding of the computed `trendChartData`: labels go through
`filenameToDateLabel`; each point is coloured red when `v >= threshold`
and blue otherwise.  (`cards.threshold ?? 0` is the identity here since
the modelled field is never null.) -/
def trendChartData (trendRaw : TrendResponse) (cards : OverviewCards) : TrendChart :=
  let labels := trendRaw.labels.map filenameToDateLabel
  let data := trendRaw.data
  let threshold := cards.threshold
  { labels := labels,
    datasets := [{
      label := "평균 이상 점수 (임계값 " ++ jsToFixed 2 threshold ++ ")",
      data := data,
      backgroundColor := data.map (fun v =>
        if threshold ≤ v then "rgba(239,68,68,0.85)" else "rgba(59,130,246,0.85)"),
      borderColor := data.map (fun v =>
        if threshold ≤ v then "#ef4444" else "#3b82f6") }] }

/-- C5: the trend chart has exactly one dataset, its data is the raw
trend data, and its point colours are the pointwise classification:
red (`rgba(239,68,68,0.85)` / `#ef4444`) when the point's value is at
or above the threshold, blue (`rgba(59,130,246,0.85)` / `#3b82f6`) when
it is below — each point's colour depends only on that point's value
and the threshold. -/
theorem trendChartData_spec (raw : TrendResponse) (cards : OverviewCards) :
    (trendChartData raw cards).datasets.map (fun ds => ds.data) = [raw.data] ∧
    (trendChartData raw cards).datasets.map (fun ds => ds.backgroundColor) =
      [raw.data.map (fun v =>
        if cards.threshold ≤ v then "rgba(239,68,68,0.85)" else "rgba(59,130,246,0.85)")] ∧
    (trendChartData raw cards).datasets.map (fun ds => ds.borderColor) =
      [raw.data.map (fun v => if cards.threshold ≤ v then "#ef4444" else "#3b82f6")] ∧
    (∀ (i : Nat) (v : ℚ), raw.data[i]? = some v →
      (trendChartData raw cards).datasets.map (fun ds => ds.backgroundColor[i]?) =
        [some (if cards.threshold ≤ v then "rgba(239,68,68,0.85)"
          else "rgba(59,130,246,0.85)")]) := by
  refine ⟨rfl, rfl, rfl, fun i v hv => ?_⟩
  simp [trendChartData, hv]

/-- Witness for `trendChartData_spec` at one data point `0.5` with
threshold `0.3`. -/
theorem trendChartData_spec_witness :
    (([(1 : ℚ)/2] : List ℚ)[0]? = some (1/2)) ∧
    (trendChartData ⟨["f"], [1/2]⟩ ⟨0, 0, 0, 3/10⟩).datasets.map
        (fun ds => ds.backgroundColor[0]?) =
      [some (if (3/10 : ℚ) ≤ 1/2 then "rgba(239,68,68,0.85)"
        else "rgba(59,130,246,0.85)")] :=
  ⟨rfl, (trendChartData_spec ⟨["f"], [1/2]⟩ ⟨0, 0, 0, 3/10⟩).2.2.2 0 (1/2) rfl⟩

/-! ## `distributionChartData` histogram labels (App.vue lines 369–408) -/

/-- The histogram label loop: for each index `i` of an adjacent pair of
bin edges, skip the pair if either edge is missing (`== null`), and
otherwise push `start.toFixed(1) ++ "–" ++ end.toFixed(1)`. -/
def histogramLabels (bins : List (Option ℚ)) : List String :=
  (List.range (bins.length - 1)).filterMap (fun i =>
    match (bins[i]?).getD none, (bins[i + 1]?).getD none with
    | some s, some e => some (jsToFixed 1 s ++ "–" ++ jsToFixed 1 e)
    | _, _ => none)

/-- The labels-and-counts part of the computed `distributionChartData`:
empty bins or counts give the empty chart. -/
structure DistChart where
  labels : List String
  dataLabel : String
  data : List ℚ
deriving DecidableEq

def distributionChartData (raw : DistributionResponse) : DistChart :=
  if raw.bins.isEmpty || raw.counts.isEmpty then ⟨[], "샘플 수", []⟩
  else ⟨histogramLabels raw.bins, "샘플 수", raw.counts⟩

lemma filterMap_eq_map_of_forall_some {α β : Type} (l : List α) (f : α → Option β)
    (g : α → β) (h : ∀ a ∈ l, f a = some (g a)) : l.filterMap f = l.map g := by
  induction l with
  | nil => rfl
  | cons x xs ih =>
    rw [List.filterMap_cons, h x (List.mem_cons_self x xs), List.map_cons,
      ih (fun a ha => h a (List.mem_cons_of_mem x ha))]

lemma length_filterMap_eq_length_filter {α β : Type} (l : List α) (f : α → Option β) :
    (l.filterMap f).length = (l.filter (fun a => (f a).isSome)).length := by
  induction l with
  | nil => rfl
  | cons x xs ih =>
    cases hfx : f x with
    | none => simp [List.filterMap_cons, List.filter_cons, hfx, ih]
    | some b => simp [List.filterMap_cons, List.filter_cons, hfx, ih]

/-- C7: the histogram label builder yields one label per adjacent pair
of present bin edges (in order), skipping any pair with a missing edge;
when no edge is missing the `i`-th label is
`bins[i].toFixed(1) ++ "–" ++ bins[i+1].toFixed(1)`; for bins
`[0.0, 0.5, 1.0]` the labels are exactly `["0.0–0.5", "0.5–1.0"]`; and
these are the labels `distributionChartData` shows whenever bins and
counts are non-empty. -/
theorem histogramLabels_spec :
    (∀ bins : List (Option ℚ),
      (histogramLabels bins).length =
        ((List.range (bins.length - 1)).filter
          (fun i => ((bins[i]?).getD none).isSome && ((bins[i + 1]?).getD none).isSome)).length) ∧
    (∀ bins : List (Option ℚ), (∀ b ∈ bins, b.isSome) →
      ∀ (i : Nat) (s e : ℚ), bins[i]? = some (some s) → bins[i + 1]? = some (some e) →
        (histogramLabels bins)[i]? = some (jsToFixed 1 s ++ "–" ++ jsToFixed 1 e)) ∧
    histogramLabels [some 0, some (1/2), some 1] = ["0.0–0.5", "0.5–1.0"] ∧
    (∀ raw : DistributionResponse, raw.bins ≠ [] → raw.counts ≠ [] →
      (distributionChartData raw).labels = histogramLabels raw.bins) := by
  refine ⟨?_, ?_, ?_, ?_⟩
  · intro bins
    unfold histogramLabels
    rw [length_filterMap_eq_length_filter]
    congr 1
    apply List.filter_congr
    intro i _
    cases (bins[i]?).getD none <;> cases (bins[i + 1]?).getD none <;> rfl
  · intro bins hall i s e hi hi1
    have hi1lt : i + 1 < bins.length := by
      by_contra hge
      rw [List.getElem?_eq_none (by omega)] at hi1
      exact absurd hi1 (by simp)
    have hrange : i < bins.length - 1 := by omega
    unfold histogramLabels
    rw [filterMap_eq_map_of_forall_some _ _
      (fun j => jsToFixed 1 ((((bins[j]?).getD none).getD 0)) ++ "–" ++
        jsToFixed 1 ((((bins[j + 1]?).getD none).getD 0))) ?_]
    · rw [List.getElem?_map, List.getElem?_range hrange]
      simp [hi, hi1]
    · intro j hj
      have hjlt : j < bins.length - 1 := List.mem_range.mp hj
      cases hbj : bins[j]? with
      | none =>
        rw [List.getElem?_eq_none_iff] at hbj
        omega
      | some bj =>
        cases hbj1 : bins[j + 1]? with
        | none =>
          rw [List.getElem?_eq_none_iff] at hbj1
          omega
        | some bj1 =>
          have hsj : bj.isSome := hall bj (List.getElem?_mem hbj)
          have hsj1 : bj1.isSome := hall bj1 (List.getElem?_mem hbj1)
          obtain ⟨vj, rfl⟩ := Option.isSome_iff_exists.mp hsj
          obtain ⟨vj1, rfl⟩ := Option.isSome_iff_exists.mp hsj1
          simp [hbj, hbj1]
  · have h0 : (([some 0, some (1/2), some 1] : List (Option ℚ)).length - 1) = 2 := by rfl
    unfold histogramLabels
    rw [h0]
    have hr : List.range 2 = [0, 1] := by rfl
    rw [hr]
    simp only [List.filterMap_cons, List.filterMap_nil]
    norm_num [jsToFixed]
    exact ⟨rfl, rfl⟩
  · intro raw h1 h2
    have hl : raw.bins.isEmpty = false := by
      cases hx : raw.bins with
      | nil => exact absurd hx h1
      | cons a l => rfl
    have hc : raw.counts.isEmpty = false := by
      cases hx : raw.counts with
      | nil => exact absurd hx h2
      | cons a l => rfl
    unfold distributionChartData
    rw [hl, hc]
    rfl

/-- Witness for `histogramLabels_spec` at bins `[0.0, 0.5, 1.0]` and the
first adjacent pair. -/
theorem histogramLabels_spec_witness :
    (∀ b ∈ ([some 0, some (1/2), some 1] : List (Option ℚ)), b.isSome) ∧
    (([some 0, some (1/2), some 1] : List (Option ℚ))[0]? = some (some 0)) ∧
    (histogramLabels [some 0, some (1/2), some 1])[0]? =
      some (jsToFixed 1 0 ++ "–" ++ jsToFixed 1 (1/2)) :=
  ⟨by decide, rfl,
    histogramLabels_spec.2.1 [some 0, some (1/2), some 1] (by decide) 0 0 (1/2) rfl rfl⟩

/-! ## Top-5 ranking (spec §4.2) -/

/-- Modelled from the spec: the top-5 ranking view is missing from
`src/` (this repository ships the dashboard variant without the ranked
list).  Per the spec it takes the first 5 rows of the sample table in
backend order and gives each row a relative bar width of
`score / max(maximum of the 5 scores, 0.001) * 100` percent, a missing
score defaulting to `0`. -/
def rankingBarWidths (rows : List SampleRow) : List ℚ :=
  (rows.take 5).map (fun r => ((r.anomaly_score).getD 0) /
    ((rows.take 5).foldl (fun m r => max m ((r.anomaly_score).getD 0)) (1/1000)) * 100)

/-- The spec's example: five rows with scores 0.9, 0.1, 0.5, 0.001, 0.0. -/
def rankingExampleRows : List SampleRow :=
  [{ anomaly_score := some (9/10) }, { anomaly_score := some (1/10) },
   { anomaly_score := some (1/2) }, { anomaly_score := some (1/1000) },
   { anomaly_score := some 0 }]

/-- C10: the ranking uses only the first 5 rows in backend order, one
bar per row; a row with a missing score gets width `0`; and on the
spec's example scores `[0.9, 0.1, 0.5, 0.001, 0.0]` each width is
exactly `score / 0.9 * 100`. -/
theorem rankingBarWidths_spec :
    (∀ rows : List SampleRow, rankingBarWidths rows = rankingBarWidths (rows.take 5)) ∧
    (∀ rows : List SampleRow, (rankingBarWidths rows).length = (rows.take 5).length) ∧
    (∀ (rows : List SampleRow) (k : Nat) (r : SampleRow), (rows.take 5)[k]? = some r →
      r.anomaly_score = none → (rankingBarWidths rows)[k]? = some 0) ∧
    rankingBarWidths rankingExampleRows =
      [(9/10) / (9/10) * 100, (1/10) / (9/10) * 100, (1/2) / (9/10) * 100,
        (1/1000) / (9/10) * 100, 0 / (9/10) * 100] := by
  refine ⟨?_, ?_, ?_, ?_⟩
  · intro rows
    unfold rankingBarWidths
    rw [List.take_take]
    norm_num
  · intro rows
    unfold rankingBarWidths
    simp
  · intro rows k r hk hnone
    unfold rankingBarWidths
    rw [List.getElem?_map, hk]
    simp [hnone]
  · unfold rankingBarWidths
    have hdenom : (rankingExampleRows.take 5).foldl
        (fun m r => max m ((r.anomaly_score).getD 0)) (1/1000) = 9/10 := by
      simp only [rankingExampleRows, List.take, List.foldl]
      norm_num [max_def]
    rw [hdenom]
    simp only [rankingExampleRows, List.take, List.map]
    simp

/-- Witness for `rankingBarWidths_spec` at a single row with a missing
score. -/
theorem rankingBarWidths_spec_witness :
    ((([{ anomaly_score := none }] : List SampleRow).take 5)[0]? =
      some { anomaly_score := none }) ∧
    (({ anomaly_score := none } : SampleRow).anomaly_score = none) ∧
    (rankingBarWidths [{ anomaly_score := none }])[0]? = some 0 :=
  ⟨rfl, rfl,
    rankingBarWidths_spec.2.2.1 [{ anomaly_score := none }] 0 { anomaly_score := none } rfl rfl⟩

-- sanity checks on the regular-expression scan
example : filenameToDateLabel "processed_packets_20251111_111134.csv" = "2025-11-11" := by
  decide
example : filenameToDateLabel "no-digits.csv" = "no-digits.csv" := by decide
example : daysFromCivil 1970 1 1 = 0 := by decide
example : civilFromDays 0 = (1970, 1, 1) := by decide
example : formatDateLabel "2025-11-11T10:00:00Z" = "2025-11-11" := by decide
example : formatDateLabel "not-a-date" = "not-a-date" := by decide
example : formatDateLabel "2025-11-11" = "2025-11-11" := by decide
example : formatDateLabel "2025-11-10T23:30:00Z" = "2025-11-11" := by decide
example : formatDateLabel "2024-02-29" = "2024-02-29" := by decide
example : formatDateLabel "2025-02-29" = "2025-02-29" := by decide
example : parseJsDate "2025-02-29" = none := by decide
example : formatDateLabel "2025-01-01T05:00:00+09:00" = "2025-01-01" := by decide
example : formatDateLabel "1969-12-31T00:00:00Z" = "1969-12-31" := by decide

end Dashboard
